import Mathlib

/-!
Verification of the log shipper in pitcher.go (package logging).

The shipper ingests opaque log lines, batches them per reporting interval,
and sends batches to a remote collector over a gob-encoded TCP stream.
The definitions below are a shallow embedding of the functions
transferConfig.Write, transferConfig.Close, connect and transferLogEntries
from src/pitcher.go. Network and channel outcomes (DNS lookup, dial,
token derivation, gob writes, channel receivers) are supplied by explicit
environment oracles, so every definition is executable.
-/

namespace Logging

/-- Outcome oracle for one call of the local closure send inside
transferLogEntries: whether connect would fail if it were attempted, and
whether enc.Encode would fail if it were attempted. -/
structure SendEnv where
  connectErr : Bool
  encodeErr : Bool
deriving DecidableEq

/-- One diagnostic written through settings.log.writeLocalEntry in
pitcher.go: the ERROR on connect failure, the ERROR on encode failure,
the DEBUG confirmation carrying the number of lines sent, and the WARNING
carrying the number of purged unsent lines. -/
inductive Report where
  | errConnect
  | errSend
  | debugSent (n : Nat)
  | warnPurge (n : Nat)
deriving DecidableEq

/-- Result of one call of the send closure: the value of the shared enc
pointer after the call (true means non-nil), whether the call returned a
nil error, the diagnostics it wrote, and instrumentation recording whether
connect and enc.Encode were actually invoked during the call. -/
structure SendResult where
  enc : Bool
  ok : Bool
  reports : List Report
  connectAttempted : Bool
  encodeAttempted : Bool
deriving DecidableEq

/-- Shallow embedding of the send closure in transferLogEntries
(pitcher.go lines 109..130): if enc is nil, call connect first; on connect
failure report ERROR and return the error with enc still nil. Then encode
the LogTransfer record; on encode failure report ERROR, set enc to nil and
return the error. On success report DEBUG with the line count and keep the
connection. -/
def send (env : SendEnv) (enc : Bool) (l : List String) : SendResult :=
  if !enc && env.connectErr then
    { enc := false, ok := false, reports := [.errConnect],
      connectAttempted := true, encodeAttempted := false }
  else if env.encodeErr then
    { enc := false, ok := false, reports := [.errSend],
      connectAttempted := !enc, encodeAttempted := true }
  else
    { enc := true, ok := true, reports := [.debugSent l.length],
      connectAttempted := !enc, encodeAttempted := true }

/-- Outcome oracles for the two send calls a single flush goroutine can
make: the fresh-batch send and the opportunistic resend of unsentLines. -/
structure FlushEnv where
  first : SendEnv
  second : SendEnv
deriving DecidableEq

/-- State shared between flush goroutines and guarded by encoderLock in
transferLogEntries: the enc pointer (true means a live connection) and the
unsentLines slice. -/
structure SharedState where
  enc : Bool
  unsentLines : List String
deriving DecidableEq

/-- Hard-coded overflow capacity from transferLogEntries:
maxUnsentLines := 10000. -/
def maxUnsentLines : Nat := 10000

/-- Result of one flush goroutine: the updated shared state, the
diagnostics written, and the trace of line sets passed to send, in call
order. -/
structure FlushResult where
  state : SharedState
  reports : List Report
  attempts : List (List String)
deriving DecidableEq

/-- Shallow embedding of the goroutine body spawned on a timer tick
(pitcher.go lines 105..144), which runs entirely under encoderLock. It
sends linesToSend; on failure it appends them to unsentLines and, when the
result exceeds the capacity maxU, reports a purge WARNING and keeps only
the newest maxU lines. On success, when unsentLines is non-empty, it makes
exactly one further send of the whole unsentLines slice, clearing it on
success and leaving it untouched on failure. -/
def flush (maxU : Nat) (env : FlushEnv) (st : SharedState)
    (linesToSend : List String) : FlushResult :=
  let r1 := send env.first st.enc linesToSend
  if r1.ok = false then
    let u := st.unsentLines ++ linesToSend
    if u.length > maxU then
      { state := ⟨r1.enc, u.drop (u.length - maxU)⟩,
        reports := r1.reports ++ [.warnPurge (u.length - maxU)],
        attempts := [linesToSend] }
    else
      { state := ⟨r1.enc, u⟩, reports := r1.reports,
        attempts := [linesToSend] }
  else if st.unsentLines.length > 0 then
    let r2 := send env.second r1.enc st.unsentLines
    if r2.ok then
      { state := ⟨r2.enc, []⟩, reports := r1.reports ++ r2.reports,
        attempts := [linesToSend, st.unsentLines] }
    else
      { state := ⟨r2.enc, st.unsentLines⟩,
        reports := r1.reports ++ r2.reports,
        attempts := [linesToSend, st.unsentLines] }
  else
    { state := ⟨r1.enc, st.unsentLines⟩, reports := r1.reports,
      attempts := [linesToSend] }

/-- C2: after an append of failed lines the overflow buffer never exceeds
the capacity; when the append exceeds it, exactly length - capacity oldest
entries are dropped (the newest capacity lines are kept, in order) and a
purge WARNING carrying exactly that count is emitted after the send error
report; the hard-coded default capacity is 10000. -/
theorem overflow_bounded_purge (maxU : Nat) (env : FlushEnv)
    (st : SharedState) (lines : List String)
    (hfail : (send env.first st.enc lines).ok = false) :
    (flush maxU env st lines).state.unsentLines.length ≤ maxU ∧
    ((st.unsentLines ++ lines).length > maxU →
      (flush maxU env st lines).state.unsentLines =
        (st.unsentLines ++ lines).drop
          ((st.unsentLines ++ lines).length - maxU) ∧
      (flush maxU env st lines).reports =
        (send env.first st.enc lines).reports ++
          [Report.warnPurge ((st.unsentLines ++ lines).length - maxU)]) ∧
    ((st.unsentLines ++ lines).length ≤ maxU →
      (flush maxU env st lines).state.unsentLines =
        st.unsentLines ++ lines) ∧
    maxUnsentLines = 10000 := by
  by_cases h : maxU < st.unsentLines.length + lines.length
  · refine ⟨?_, fun _ => ⟨?_, ?_⟩, fun hle => ?_, rfl⟩
    · simp [flush, hfail, h, List.length_drop]
      omega
    · simp [flush, hfail, h]
    · simp [flush, hfail, h]
    · rw [List.length_append] at hle
      omega
  · refine ⟨?_, fun hgt => ?_, fun _ => ?_, rfl⟩
    · simp [flush, hfail, h]
      omega
    · rw [List.length_append] at hgt
      omega
    · simp [flush, hfail, h]

/-- C2 witness: with capacity 2, a failed send of two lines onto an
overflow of two lines keeps exactly the newest two lines and reports a
purge of two lines. -/
theorem overflow_bounded_purge_witness :
    (send ⟨true, false⟩ false ["c", "d"]).ok = false ∧
    (flush 2 ⟨⟨true, false⟩, ⟨false, false⟩⟩ ⟨false, ["a", "b"]⟩
        ["c", "d"]).state.unsentLines = ["c", "d"] := by
  have h := overflow_bounded_purge 2 ⟨⟨true, false⟩, ⟨false, false⟩⟩
    ⟨false, ["a", "b"]⟩ ["c", "d"] (by decide)
  refine ⟨by decide, ?_⟩
  rw [(h.2.1 (by decide)).1]
  rfl

/-- C3: when the fresh send succeeds and the overflow buffer is non-empty,
the flush unit makes exactly one second send, of the entire overflow
contents; if that second send succeeds the overflow buffer becomes empty,
and if it fails the buffer is exactly what it was before the attempt. -/
theorem opportunistic_retry (maxU : Nat) (env : FlushEnv)
    (st : SharedState) (lines : List String)
    (hok : (send env.first st.enc lines).ok = true)
    (hne : st.unsentLines ≠ []) :
    (flush maxU env st lines).attempts = [lines, st.unsentLines] ∧
    ((send env.second (send env.first st.enc lines).enc
        st.unsentLines).ok = true →
      (flush maxU env st lines).state.unsentLines = []) ∧
    ((send env.second (send env.first st.enc lines).enc
        st.unsentLines).ok = false →
      (flush maxU env st lines).state.unsentLines = st.unsentLines) := by
  have hlen : 0 < st.unsentLines.length := List.length_pos.mpr hne
  by_cases h2 : (send env.second (send env.first st.enc lines).enc
      st.unsentLines).ok = true
  · refine ⟨?_, fun _ => ?_,
      fun hf => absurd (h2.symm.trans hf) (by decide)⟩ <;>
      simp [flush, hok, hlen, h2]
  · have h2f : (send env.second (send env.first st.enc lines).enc
        st.unsentLines).ok = false := by
      simpa using h2
    refine ⟨?_, fun ht => absurd ht h2, fun _ => ?_⟩ <;>
      simp [flush, hok, hlen, h2f]

/-- C3 witness: a successful fresh send followed by a failed opportunistic
resend leaves the overflow buffer unchanged, and both sends were
attempted. -/
theorem opportunistic_retry_witness :
    (send ⟨false, false⟩ false ["n"]).ok = true ∧
    (["o"] : List String) ≠ [] ∧
    (flush 10 ⟨⟨false, false⟩, ⟨false, true⟩⟩ ⟨false, ["o"]⟩
        ["n"]).attempts = [["n"], ["o"]] ∧
    (flush 10 ⟨⟨false, false⟩, ⟨false, true⟩⟩ ⟨false, ["o"]⟩
        ["n"]).state.unsentLines = ["o"] := by
  have h := opportunistic_retry 10 ⟨⟨false, false⟩, ⟨false, true⟩⟩
    ⟨false, ["o"]⟩ ["n"] (by decide) (by decide)
  exact ⟨by decide, by decide, h.1, h.2.2 (by decide)⟩

/-- C4: when the fresh send fails, the attempted lines are appended in
order to the overflow buffer: the resulting buffer is always a suffix of
old buffer ++ attempted lines, and when the total stays within capacity it
is exactly old buffer ++ attempted lines, so every attempted line is
present afterwards. -/
theorem failed_send_folds (maxU : Nat) (env : FlushEnv)
    (st : SharedState) (lines : List String)
    (hfail : (send env.first st.enc lines).ok = false) :
    List.IsSuffix (flush maxU env st lines).state.unsentLines
      (st.unsentLines ++ lines) ∧
    ((st.unsentLines ++ lines).length ≤ maxU →
      (flush maxU env st lines).state.unsentLines =
        st.unsentLines ++ lines ∧
      ∀ l ∈ lines, l ∈ (flush maxU env st lines).state.unsentLines) := by
  by_cases h : maxU < st.unsentLines.length + lines.length
  · refine ⟨?_, fun hle => ?_⟩
    · have heq : (flush maxU env st lines).state.unsentLines =
          (st.unsentLines ++ lines).drop
            (st.unsentLines.length + lines.length - maxU) := by
        simp [flush, hfail, h]
      rw [heq]
      exact ⟨(st.unsentLines ++ lines).take
          (st.unsentLines.length + lines.length - maxU),
        List.take_append_drop _ _⟩
    · rw [List.length_append] at hle
      omega
  · have heq : (flush maxU env st lines).state.unsentLines =
        st.unsentLines ++ lines := by
      simp [flush, hfail, h]
    refine ⟨heq ▸ List.suffix_refl _, fun _ => ⟨heq, fun l hl => ?_⟩⟩
    rw [heq]
    exact List.mem_append_right _ hl

/-- C4 witness: a failed connect folds both attempted lines into the
overflow buffer after the existing line. -/
theorem failed_send_folds_witness :
    (send ⟨true, false⟩ false ["x", "y"]).ok = false ∧
    (flush 10 ⟨⟨true, false⟩, ⟨false, false⟩⟩ ⟨false, ["w"]⟩
        ["x", "y"]).state.unsentLines = ["w", "x", "y"] := by
  have h := failed_send_folds 10 ⟨⟨true, false⟩, ⟨false, false⟩⟩
    ⟨false, ["w"]⟩ ["x", "y"] (by decide)
  refine ⟨by decide, ?_⟩
  rw [(h.2 (by decide)).1]
  rfl

/-- C6: an encode failure on a live connection tears the connection down
(enc becomes nil) and reports ERROR; with no live connection, send calls
connect lazily before any encoding, and a connect failure leaves the
connection absent and reports ERROR without attempting an encode; with a
live connection no connect is attempted. -/
theorem conn_teardown_lazy (env : SendEnv) (l : List String) :
    (env.encodeErr = true →
      send env true l =
        ⟨false, false, [.errSend], false, true⟩) ∧
    (env.connectErr = true →
      send env false l =
        ⟨false, false, [.errConnect], true, false⟩) ∧
    (send env false l).connectAttempted = true ∧
    (send env true l).connectAttempted = false := by
  obtain ⟨c, e⟩ := env
  cases c <;> cases e <;>
    refine ⟨fun he => ?_, fun hc => ?_, ?_, ?_⟩ <;>
    simp_all [send]

/-- C6 witness: an encode failure on a live connection and a connect
failure on an absent connection behave as stated at concrete inputs. -/
theorem conn_teardown_lazy_witness :
    send ⟨false, true⟩ true ["x"] =
      ⟨false, false, [.errSend], false, true⟩ ∧
    send ⟨true, false⟩ false ["x"] =
      ⟨false, false, [.errConnect], true, false⟩ :=
  ⟨(conn_teardown_lazy ⟨false, true⟩ ["x"]).1 rfl,
   (conn_teardown_lazy ⟨true, false⟩ ["x"]).2.1 rfl⟩

/-- Whole-shipper state for the interleaved semantics of
transferLogEntries: the loop-local lines buffer, the lock-guarded shared
state, the snapshots of spawned flush goroutines that have not yet run,
and whether the loop has returned on the quit signal. -/
structure SystemState where
  lines : List String
  shared : SharedState
  pending : List (List String)
  closed : Bool
deriving DecidableEq

/-- Events processed by the select loop of transferLogEntries and by the
scheduler: a timer tick, the arrival of one producer line on the entry
channel, the quit signal, and the scheduler running the flush goroutine
at index i of the pending list with outcome oracle env. -/
inductive Event where
  | tick
  | entry (s : String)
  | quit
  | runFlush (i : Nat) (env : FlushEnv)
deriving DecidableEq

/-- One step of the system (pitcher.go lines 98..150). On a tick with
non-empty lines, the loop copies lines into a snapshot, resets lines to a
fresh empty buffer and spawns a flush goroutine with the snapshot; a tick
with empty lines does nothing. An entry event appends the received line.
The quit event makes the loop return. After the loop has returned, tick
and entry events have no effect on loop state (no receiver remains), but
already-spawned flush goroutines still execute when scheduled. -/
def step (st : SystemState) : Event → SystemState
  | .tick =>
    if st.closed then st
    else if st.lines.length > 0 then
      { st with lines := [], pending := st.pending ++ [st.lines] }
    else st
  | .entry s =>
    if st.closed then st
    else { st with lines := st.lines ++ [s] }
  | .quit => { st with closed := true }
  | .runFlush i env =>
    match st.pending[i]? with
    | none => st
    | some snap =>
      { st with
          shared := (flush maxUnsentLines env st.shared snap).state,
          pending := st.pending.eraseIdx i }

/-- Processing of a sequence of events, in order. -/
def run (st : SystemState) (evs : List Event) : SystemState :=
  evs.foldl step st

theorem run_append (st : SystemState) (a b : List Event) :
    run st (a ++ b) = run (run st a) b :=
  List.foldl_append ..

theorem run_entries (st : SystemState) (es : List String)
    (h : st.closed = false) :
    run st (es.map Event.entry) = { st with lines := st.lines ++ es } := by
  induction es generalizing st with
  | nil => simp [run]
  | cons e es ih =>
    have hstep : step st (.entry e) = { st with lines := st.lines ++ [e] } := by
      simp [step, h]
    have : run st ((e :: es).map Event.entry) =
        run { st with lines := st.lines ++ [e] } (es.map Event.entry) := by
      simp only [List.map_cons]
      rw [run, List.foldl_cons, hstep]
      rfl
    rw [this, ih { st with lines := st.lines ++ [e] } h]
    simp

theorem step_tick_snapshot (st : SystemState) (h : st.closed = false)
    (hne : st.lines ≠ []) :
    step st .tick =
      { st with lines := [], pending := st.pending ++ [st.lines] } := by
  have : 0 < st.lines.length := List.length_pos.mpr hne
  simp [step, h, this]

/-- C1: between two ticks the pending buffer accumulates exactly the
submitted lines in order; each tick snapshots the accumulated lines as the
batch handed to a flush unit and resets the pending buffer to empty, so
lines submitted after the snapshot go only into the next batch: starting
from an open loop with an empty buffer, submitting es1, ticking,
submitting es2 and ticking hands off exactly the batches es1 and es2 and
leaves the buffer empty. -/
theorem snapshot_reset_batching (st : SystemState) (es1 es2 : List String)
    (hopen : st.closed = false) (hempty : st.lines = [])
    (h1 : es1 ≠ []) (h2 : es2 ≠ []) :
    run st (es1.map Event.entry ++ [Event.tick] ++
        es2.map Event.entry ++ [Event.tick]) =
      { st with lines := [], pending := st.pending ++ [es1, es2] } := by
  obtain ⟨l, sh, p, c⟩ := st
  simp only at hopen hempty
  subst hopen hempty
  rw [show es1.map Event.entry ++ [Event.tick] ++
        es2.map Event.entry ++ [Event.tick] =
      es1.map Event.entry ++ ([Event.tick] ++
        (es2.map Event.entry ++ [Event.tick])) by simp,
    run_append, run_entries _ _ rfl]
  simp only [List.nil_append]
  rw [run_append, show run ⟨es1, sh, p, false⟩ [Event.tick] =
      step ⟨es1, sh, p, false⟩ .tick from rfl,
    step_tick_snapshot _ rfl h1]
  rw [run_append, run_entries _ _ rfl]
  simp only [List.nil_append]
  rw [show run ⟨es2, sh, p ++ [es1], false⟩ [Event.tick] =
      step ⟨es2, sh, p ++ [es1], false⟩ .tick from rfl,
    step_tick_snapshot _ rfl h2]
  simp

/-- C1 witness: from a fresh open state, submitting a then b, c across two
ticks yields exactly the two batches in submission order. -/
theorem snapshot_reset_batching_witness :
    run ⟨[], ⟨false, []⟩, [], false⟩
        ([Event.entry "a", Event.tick,
          Event.entry "b", Event.entry "c", Event.tick]) =
      ⟨[], ⟨false, []⟩, [["a"], ["b", "c"]], false⟩ := by
  have h := snapshot_reset_batching ⟨[], ⟨false, []⟩, [], false⟩
    ["a"] ["b", "c"] rfl rfl (by decide) (by decide)
  simpa using h

/-- Predicate distinguishing the loop events tick and entry from the quit
signal and scheduler events. -/
def isLoopEvent : Event → Bool
  | .tick => true
  | .entry _ => true
  | _ => false

/-- C9: after Close the loop returns on the quit signal: any further
sequence of ticks and entries changes nothing (no new batch is created and
buffered lines are abandoned), while flush goroutines spawned before the
close still execute when scheduled. -/
theorem close_stops_ingestion (st : SystemState) (evs : List Event)
    (hev : ∀ e ∈ evs, isLoopEvent e = true) :
    run (step st .quit) evs = { st with closed := true } ∧
    (∀ i env snap, st.pending[i]? = some snap →
      (step { st with closed := true } (.runFlush i env)).shared =
        (flush maxUnsentLines env st.shared snap).state) := by
  constructor
  · have hq : step st .quit = { st with closed := true } := rfl
    rw [hq]
    induction evs with
    | nil => rfl
    | cons e es ih =>
      have he := hev e (by simp)
      have hstep : step { st with closed := true } e =
          { st with closed := true } := by
        cases e with
        | tick => simp [step]
        | entry s => simp [step]
        | quit => rfl
        | runFlush i env => simp [isLoopEvent] at he
      rw [show run { st with closed := true } (e :: es) =
            run (step { st with closed := true } e) es from rfl, hstep]
      exact ih fun e hmem => hev e (by simp [hmem])
  · intro i env snap hsnap
    simp [step, hsnap]

/-- C9 witness: after close, an entry and a tick leave the state frozen,
and the flush goroutine pending at index 0 still runs. -/
theorem close_stops_ingestion_witness :
    run (step ⟨["l"], ⟨false, []⟩, [["x"]], false⟩ .quit)
        [Event.entry "m", Event.tick] =
      ⟨["l"], ⟨false, []⟩, [["x"]], true⟩ ∧
    (step ⟨["l"], ⟨false, []⟩, [["x"]], true⟩
        (.runFlush 0 ⟨⟨true, false⟩, ⟨false, false⟩⟩)).shared =
      ⟨false, ["x"]⟩ := by
  have h := close_stops_ingestion ⟨["l"], ⟨false, []⟩, [["x"]], false⟩
    [Event.entry "m", Event.tick] (by decide)
  refine ⟨h.1, ?_⟩
  rw [h.2 0 ⟨⟨true, false⟩, ⟨false, false⟩⟩ ["x"] rfl]
  rfl

/-- Program counter of one flush goroutine with respect to encoderLock in
transferLogEntries: spawned but not yet holding the lock, holding the lock
(the whole goroutine body, which contains every access to the shared enc
pointer and the unsentLines slice, runs between encoderLock.Lock and the
deferred encoderLock.Unlock, pitcher.go lines 106..108), or finished. -/
inductive FlushPC where
  | waiting
  | critical
  | finished
deriving DecidableEq

/-- Lock-level state of the shipper: which flush goroutine, by spawn
index, currently holds encoderLock, and the pc of every spawned
goroutine. -/
structure LockState where
  holder : Option Nat
  pcs : List FlushPC
deriving DecidableEq

/-- Interleaved transitions of the flush goroutines with respect to
encoderLock: a tick spawns a new goroutine, a waiting goroutine acquires
the free lock, and the goroutine holding the lock finishes and releases
it. -/
inductive LockStep : LockState → LockState → Prop where
  | spawn (s : LockState) :
      LockStep s { s with pcs := s.pcs ++ [.waiting] }
  | acquire (s : LockState) (i : Nat)
      (h : s.pcs[i]? = some .waiting) (hfree : s.holder = none) :
      LockStep s { holder := some i, pcs := s.pcs.set i .critical }
  | release (s : LockState) (i : Nat)
      (h : s.pcs[i]? = some .critical) (hhold : s.holder = some i) :
      LockStep s { holder := none, pcs := s.pcs.set i .finished }

/-- Initial lock state of transferLogEntries: lock free, no flush
goroutine spawned. -/
def initLock : LockState := { holder := none, pcs := [] }

/-- States reachable from the initial lock state. -/
inductive LockReachable : LockState → Prop where
  | init : LockReachable initLock
  | next {s t : LockState} :
      LockReachable s → LockStep s t → LockReachable t

/-- Lock invariant: every goroutine inside the critical section is the
recorded holder of encoderLock. -/
def LockInv (s : LockState) : Prop :=
  ∀ i, s.pcs[i]? = some .critical → s.holder = some i

theorem get_set_ne_pc (l : List FlushPC) (i j : Nat) (a : FlushPC)
    (hij : i ≠ j) : (l.set i a)[j]? = l[j]? := by
  induction l generalizing i j with
  | nil => simp
  | cons x xs ih =>
    cases i with
    | zero =>
      cases j with
      | zero => exact absurd rfl hij
      | succ m => simp [List.set]
    | succ n =>
      cases j with
      | zero => simp [List.set]
      | succ m =>
        simp only [List.set, List.getElem?_cons_succ]
        exact ih n m (by omega)

theorem get_set_self_pc (l : List FlushPC) (i : Nat) (a b : FlushPC)
    (h : l[i]? = some b) : (l.set i a)[i]? = some a := by
  induction l generalizing i with
  | nil => simp at h
  | cons x xs ih =>
    cases i with
    | zero => simp [List.set]
    | succ n =>
      simp only [List.set, List.getElem?_cons_succ] at h ⊢
      exact ih n h

theorem lockInv_init : LockInv initLock := by
  intro i h
  simp [initLock] at h

theorem lockInv_step {s t : LockState} (hs : LockInv s)
    (hstep : LockStep s t) : LockInv t := by
  cases hstep with
  | spawn =>
    intro i h
    rcases Nat.lt_or_ge i s.pcs.length with hlt | hge
    · rw [show ({ s with pcs := s.pcs ++ [FlushPC.waiting] } :
            LockState).pcs = s.pcs ++ [FlushPC.waiting] from rfl,
        List.getElem?_append_left hlt] at h
      exact hs i h
    · rw [show ({ s with pcs := s.pcs ++ [FlushPC.waiting] } :
            LockState).pcs = s.pcs ++ [FlushPC.waiting] from rfl,
        List.getElem?_append_right hge] at h
      rcases hj : i - s.pcs.length with _ | m <;> simp [hj] at h
  | acquire i hi hfree =>
    intro j h
    by_cases hij : j = i
    · simp [hij]
    · rw [show ({ holder := some i, pcs := s.pcs.set i FlushPC.critical } :
            LockState).pcs = s.pcs.set i FlushPC.critical from rfl,
        get_set_ne_pc _ _ _ _ (fun he => hij he.symm)] at h
      exact absurd (hs j h) (by simp [hfree])
  | release i hi hhold =>
    intro j h
    by_cases hij : j = i
    · subst hij
      rw [show ({ holder := none, pcs := s.pcs.set j FlushPC.finished } :
            LockState).pcs = s.pcs.set j FlushPC.finished from rfl,
        get_set_self_pc _ _ _ _ hi] at h
      exact absurd h (by simp)
    · rw [show ({ holder := none, pcs := s.pcs.set i FlushPC.finished } :
            LockState).pcs = s.pcs.set i FlushPC.finished from rfl,
        get_set_ne_pc _ _ _ _ (fun he => hij he.symm)] at h
      have hj := hs j h
      rw [hhold] at hj
      exact absurd (Option.some.inj hj).symm hij

theorem lockInv_reachable {s : LockState} (h : LockReachable s) :
    LockInv s := by
  induction h with
  | init => exact lockInv_init
  | next _ hstep ih => exact lockInv_step ih hstep

/-- C5: mutual exclusion on the shared connection: in every reachable
lock state, at most one flush goroutine is inside the encoderLock-guarded
critical section, which contains every access to the shared gob encoder
and the unsentLines buffer. -/
theorem encoderLock_mutual_exclusion (s : LockState)
    (hr : LockReachable s) (i j : Nat)
    (hi : s.pcs[i]? = some .critical)
    (hj : s.pcs[j]? = some .critical) : i = j := by
  have h1 := lockInv_reachable hr i hi
  have h2 := lockInv_reachable hr j hj
  rw [h1] at h2
  exact Option.some.inj h2

/-- C5 witness: the state with one goroutine holding the lock is
reachable, and the exclusion theorem applies to it. -/
theorem encoderLock_mutual_exclusion_witness :
    LockReachable { holder := some 0, pcs := [FlushPC.critical] } ∧
    (0 : Nat) = 0 := by
  have h1 : LockReachable { holder := none, pcs := [FlushPC.waiting] } :=
    LockReachable.next LockReachable.init (LockStep.spawn initLock)
  have h2 : LockReachable { holder := some 0, pcs := [FlushPC.critical] } :=
    LockReachable.next h1
      (LockStep.acquire { holder := none, pcs := [FlushPC.waiting] } 0
        rfl rfl)
  exact ⟨h2, encoderLock_mutual_exclusion _ h2 0 0 rfl rfl⟩

/-- Outcome of one call of transferConfig.Write: whether the call
completes at all, and the pair it returns when it does. -/
structure WriteOutcome where
  completes : Bool
  n : Nat
  err : Option String
deriving DecidableEq

/-- Shallow embedding of transferConfig.Write (pitcher.go lines 50..56):
a nil or empty buffer returns (0, nil) immediately; otherwise the buffer
is sent on the unbuffered channel t.entry and (len p, nil) is returned
once the channel send completes. A send on an unbuffered channel completes
only when a receiver is ready, and the sole receiver of t.entry is the
select of transferLogEntries, which is gone once that loop has returned
on the quit signal. -/
def write (loopRunning : Bool) (p : List UInt8) : WriteOutcome :=
  if p.length = 0 then ⟨true, 0, none⟩
  else ⟨loopRunning, p.length, none⟩

/-- C7 counterexample: after Close the loop has returned, so a Write of a
non-empty buffer does not complete: it blocks forever on the channel
send, refuting the claim that Write never blocks in every state including
after Close. -/
theorem write_after_close_blocks :
    (write false [(7 : UInt8)]).completes = false := rfl

/-- C7 amended: Write never returns a non-nil error and reports len(p);
it completes without blocking exactly when the buffer is empty or the
ingestion loop is still running to receive it — after Close a non-empty
Write blocks forever. -/
theorem write_infallible_amended (loopRunning : Bool) (p : List UInt8) :
    (write loopRunning p).err = none ∧
    (write loopRunning p).n = p.length ∧
    ((write loopRunning p).completes = true ↔
      p.length = 0 ∨ loopRunning = true) := by
  by_cases h : p.length = 0
  · simp [write, h]
  · cases loopRunning <;> simp [write, h]

/-- Outcome of calling close on the quit channel in transferConfig.Close
(pitcher.go lines 45..48): per the Go runtime, closing a channel that is
already closed panics; otherwise Close returns nil. -/
inductive CloseOutcome where
  | returnsNil
  | panics
deriving DecidableEq

/-- Effect of one call of transferConfig.Close, as a function of whether
the quit channel has already been closed by an earlier call: Close has no
guard, it always executes close on the quit channel. -/
def closeShipper (quitAlreadyClosed : Bool) : CloseOutcome :=
  if quitAlreadyClosed then .panics else .returnsNil

/-- C10: Close is not idempotent: the first call returns nil, and a
second call on the same shipper closes an already-closed quit channel and
panics. -/
theorem close_not_idempotent :
    closeShipper false = CloseOutcome.returnsNil ∧
    closeShipper true = CloseOutcome.panics :=
  ⟨rfl, rfl⟩

/-- Outcome oracle for one call of connect (pitcher.go lines 58..88):
whether the DNS lookup fails or yields no addresses, whether the TCP dial
fails, and whether each of the two handshake writes fails. -/
structure ConnectEnv where
  lookupFails : Bool
  dialFails : Bool
  protoWriteFails : Bool
  tokenWriteFails : Bool
deriving DecidableEq

/-- Items gob-encoded on the connection during the handshake, in write
order. -/
inductive WireItem where
  | protoVersion (v : Int)
  | authToken (t : String)
deriving DecidableEq

/-- Result of connect: whether it returned encoder and decoder handles,
the handshake items successfully written on the connection, and whether
the partially-opened connection was closed on failure. -/
structure ConnectResult where
  ok : Bool
  wire : List WireItem
  connClosed : Bool
deriving DecidableEq

/-- Shallow embedding of connect (pitcher.go lines 58..88). The parameter
mk stands for encryption.MakeAuthToken from the external
sbupload/encryption package; connect applies it to the password and the
fixed context label "logupload1". After a successful dial, connect derives
the token, then gob-encodes the protocol version int32(1), then the
token; a failure of token derivation or of either write closes the
connection and returns an error with no handles. -/
def connect (mk : String → String → Option String) (env : ConnectEnv)
    (password : String) : ConnectResult :=
  if env.lookupFails then { ok := false, wire := [], connClosed := false }
  else if env.dialFails then
    { ok := false, wire := [], connClosed := false }
  else
    match mk password "logupload1" with
    | none => { ok := false, wire := [], connClosed := true }
    | some tok =>
      if env.protoWriteFails then
        { ok := false, wire := [], connClosed := true }
      else if env.tokenWriteFails then
        { ok := false, wire := [.protoVersion 1], connClosed := true }
      else
        { ok := true, wire := [.protoVersion 1, .authToken tok],
          connClosed := false }

/-- C8: on every successful connect the handshake writes, in order, the
protocol version marker 1 and then the authentication token derived from
the shared secret and the fixed label "logupload1"; a failure of token
derivation or of either handshake write closes the partial connection and
returns an error with no handles. -/
theorem handshake_protocol (mk : String → String → Option String)
    (env : ConnectEnv) (password : String)
    (hlookup : env.lookupFails = false) (hdial : env.dialFails = false) :
    (mk password "logupload1" = none →
      connect mk env password = ⟨false, [], true⟩) ∧
    (∀ tok, mk password "logupload1" = some tok →
      (env.protoWriteFails = true →
        connect mk env password = ⟨false, [], true⟩) ∧
      (env.protoWriteFails = false → env.tokenWriteFails = true →
        connect mk env password = ⟨false, [.protoVersion 1], true⟩) ∧
      (env.protoWriteFails = false → env.tokenWriteFails = false →
        connect mk env password =
          ⟨true, [.protoVersion 1, .authToken tok], false⟩)) := by
  refine ⟨fun hnone => ?_, fun tok htok => ⟨fun hp => ?_,
    fun hp ht => ?_, fun hp ht => ?_⟩⟩ <;>
    simp_all [connect]

/-- C8 witness: with all network steps succeeding and a token derivation
yielding tok, connect writes the version marker 1 then the token. -/
theorem handshake_protocol_witness :
    connect (fun _ _ => some "tok") ⟨false, false, false, false⟩ "pw" =
      ⟨true, [.protoVersion 1, .authToken "tok"], false⟩ :=
  (((handshake_protocol (fun _ _ => some "tok")
      ⟨false, false, false, false⟩ "pw" rfl rfl).2 "tok" rfl).2.2) rfl rfl

end Logging
